import Mathlib

/-!
Shallow embedding of the profile loading/concatenation routine
(`load_and_concat_profiles`, with its inner helper `load_profile`) from
`notebooks/0.download-data/2.preprocessing.ipynb`, together with models of
the polars operations it relies on (`read_parquet`, `DataFrame.select`,
`pl.concat`) and of the filesystem it reads from.

Cell values are abstracted as natural numbers: the routine never inspects
cell contents, only column names and row multiplicities.  File system reads
are made explicit: every routine returns, next to its result, the list of
files it attempted to read (in order), so that fail-fast properties can be
stated as facts about that log.
-/

set_option autoImplicit false

/-- A polars DataFrame: an ordered list of column names plus a list of rows. -/
structure DF where
  cols : List String
  rows : List (List Nat)
deriving DecidableEq

/-- Errors raised by the routine itself or by the modelled polars
operations, each carrying exactly the data its message interpolates. -/
inductive Err where
  /-- raised by `load_and_concat_profiles` when a path in `specific_plates`
  does not exist (`Profile file not found: {plate_path}`). -/
  | fileNotFound (path : String)
  /-- raised by `pl.read_parquet` when opening a missing file. -/
  | osFileNotFound (path : String)
  /-- raised by `load_and_concat_profiles` when directory discovery finds
  no parquet files (`No profile files found in {profile_dir}`). -/
  | noProfilesFound (dir : String)
  /-- raised by polars `select` when a requested column is absent; the
  error carries the column name only. -/
  | columnNotFound (col : String)
  /-- raised by polars `select` when the same output column name occurs
  twice; carries the column name only. -/
  | duplicateColumn (col : String)
  /-- raised by polars `concat` when input schemas disagree. -/
  | shapeError
  /-- raised by polars `concat` on an empty input list. -/
  | concatEmptyList
deriving DecidableEq

/-- Rendering of each error as the message the code (or polars) attaches
to the raised exception. -/
def Err.message : Err → String
  | .fileNotFound path => "Profile file not found: " ++ path
  | .osFileNotFound path => "No such file or directory: " ++ path
  | .noProfilesFound dir => "No profile files found in " ++ dir
  | .columnNotFound col => "column " ++ col ++ " not found"
  | .duplicateColumn col => "duplicate column name: " ++ col
  | .shapeError => "unable to vstack, column names do not match"
  | .concatEmptyList => "cannot concat empty list"

deriving instance DecidableEq for Except

/-- The filesystem the routine reads from: the parquet files (path paired
with table content) and, per directory, the listing that
`profile_dir.glob("*.parquet")` returns for it. -/
structure FS where
  files : List (String × DF)
  globs : List (String × List String)

/-- Reading a parquet file: `pl.read_parquet` succeeds exactly on the
paths present in the filesystem. -/
def FS.read (fs : FS) (path : String) : Option DF :=
  fs.files.lookup path

/-- Model of `pathlib.Path.exists` for the paths the routine checks. -/
def FS.pathExists (fs : FS) (path : String) : Bool :=
  (fs.read path).isSome

/-- Model of `profile_dir.glob("*.parquet")`: a directory that is absent
or empty yields the empty listing (pathlib globbing over a non-existent
directory produces no entries rather than raising). -/
def FS.glob (fs : FS) (dir : String) : List String :=
  (fs.globs.lookup dir).getD []

/-- Modelled from the spec: the name convention that classifies a column
as metadata.  The classifying predicate lives in `utils/utils.py`, which
is not among the provided sources; the spec (section 3) says metadata
columns are identified by a recognized name prefix, and every metadata
column appearing in the spec and notebook carries the `Metadata_` prefix
(`Metadata_Plate`, `Metadata_Well`). -/
def isMetadataColumn (name : String) : Bool :=
  "Metadata_".data.isPrefixOf name.data

/-- Modelled from the spec: `split_meta_and_features` is imported from
`utils.utils`, which is not among the provided sources.  Per the spec
(section 3), columns are partitioned per-table into two disjoint,
exhaustive classes by inspecting the table column names: metadata columns
(recognized prefix) and feature columns (all remaining columns), each kept
in table order. -/
def split_meta_and_features (df : DF) : List String × List String :=
  (df.cols.filter (fun c => isMetadataColumn c),
   df.cols.filter (fun c => !isMetadataColumn c))

/-- First name occurring twice in a list, if any (polars rejects a
selection whose output would contain the same column name twice). -/
def firstDup : List String → Option String
  | [] => none
  | x :: xs => if xs.contains x then some x else firstDup xs

/-- Value of a row at a named column (rows are positional; the name is
resolved against the column list). -/
def DF.cellAt (df : DF) (row : List Nat) (name : String) : Nat :=
  match df.cols.findIdx? (fun c => c == name) with
  | some i => row.getD i 0
  | none => 0

/-- Model of polars `DataFrame.select(names)`: fails with
`ColumnNotFoundError` on the first requested name absent from the frame,
fails with `DuplicateError` if the requested names repeat, and otherwise
returns the frame restricted to exactly `names`, in that order. -/
def DF.select (df : DF) (names : List String) : Except Err DF :=
  match names.find? (fun n => !(df.cols.contains n)) with
  | some n => Except.error (Err.columnNotFound n)
  | none =>
    match firstDup names with
    | some n => Except.error (Err.duplicateColumn n)
    | none =>
      Except.ok ⟨names, df.rows.map (fun r => names.map (fun n => df.cellAt r n))⟩

/-- Model of `pl.concat(loaded_profiles, rechunk=True)` (vertical stack):
empty input raises `ValueError`, mismatched column lists raise a
`ShapeError`, and otherwise the rows are stacked in order under the shared
column list. -/
def pl_concat (dfs : List DF) : Except Err DF :=
  match dfs with
  | [] => Except.error Err.concatEmptyList
  | d :: rest =>
    if rest.all (fun x => x.cols == d.cols) then
      Except.ok ⟨d.cols, ((d :: rest).map DF.rows).flatten⟩
    else
      Except.error Err.shapeError

/-- The inner `load_profile(file)` of `load_and_concat_profiles`: read the
parquet file, split its columns into metadata and features, and when
`shared_features` is supplied select metadata columns followed by the
shared features (`profile_df.select(meta_cols + shared_features)`).  The
second component is the list of file reads attempted. -/
def load_profile (fs : FS) (shared_features : Option (List String))
    (file : String) : Except Err DF × List String :=
  match fs.read file with
  | none => (Except.error (Err.osFileNotFound file), [file])
  | some profile_df =>
    match shared_features with
    | some sf =>
      (profile_df.select ((split_meta_and_features profile_df).1 ++ sf), [file])
    | none => (Except.ok profile_df, [file])

/-- The list comprehension `[load_profile(f) for f in files_to_load]`:
files are loaded one at a time, in order, and the first raised error
aborts the remainder.  The second component is the read log. -/
def load_profiles (fs : FS) (sf : Option (List String)) :
    List String → Except Err (List DF) × List String
  | [] => (Except.ok [], [])
  | f :: rest =>
    match load_profile fs sf f with
    | (Except.error e, log) => (Except.error e, log)
    | (Except.ok df, log) =>
      match load_profiles fs sf rest with
      | (Except.error e, log2) => (Except.error e, log ++ log2)
      | (Except.ok dfs, log2) => (Except.ok (df :: dfs), log ++ log2)

/-- The existence loop over `specific_plates`: returns the first supplied
path that does not exist, if any (the loop raises on the first missing
path, before any file is loaded). -/
def firstMissing (fs : FS) : List String → Option String
  | [] => none
  | p :: rest => if fs.pathExists p then firstMissing fs rest else some p

/-- Loading every resolved file and concatenating the results (the last
two statements of `load_and_concat_profiles`). -/
def concat_loaded (fs : FS) (sf : Option (List String))
    (files : List String) : Except Err DF × List String :=
  match load_profiles fs sf files with
  | (Except.error e, log) => (Except.error e, log)
  | (Except.ok dfs, log) => (pl_concat dfs, log)

/-- The embedded `load_and_concat_profiles(profile_dir, shared_features,
specific_plates)`.  The `profile_dir` string/`pathlib.Path` coercion and
the `isinstance` validations are enforced by the Lean types; everything
else follows the notebook line by line: when `specific_plates` is supplied
its paths are existence-checked first (fail fast), otherwise the files are
discovered by a non-recursive glob which must be non-empty; the resolved
files are then loaded (optionally projected to metadata plus shared
features) and vertically concatenated. -/
def load_and_concat_profiles (fs : FS) (profile_dir : String)
    (shared_features : Option (List String))
    (specific_plates : Option (List String)) : Except Err DF × List String :=
  match specific_plates with
  | some plates =>
    match firstMissing fs plates with
    | some p => (Except.error (Err.fileNotFound p), [])
    | none => concat_loaded fs shared_features plates
  | none =>
    match fs.glob profile_dir with
    | [] => (Except.error (Err.noProfilesFound profile_dir), [])
    | f :: rest => concat_loaded fs shared_features (f :: rest)

/-- Example table mirroring the spec end-to-end example: plate `P1` with
two metadata columns, two feature columns and three rows. -/
def dfP1 : DF :=
  ⟨["Metadata_Plate", "Metadata_Well", "Feature_1", "Feature_2"],
   [[1, 1, 10, 20], [1, 2, 11, 21], [1, 3, 12, 22]]⟩

/-- Example table mirroring the spec end-to-end example: plate `P2` with
the same columns as `P1` and two rows. -/
def dfP2 : DF :=
  ⟨["Metadata_Plate", "Metadata_Well", "Feature_1", "Feature_2"],
   [[2, 1, 30, 40], [2, 2, 31, 41]]⟩

/-- Example filesystem: a profiles directory holding `P1.parquet` and
`P2.parquet`. -/
def fsMain : FS :=
  ⟨[("P1.parquet", dfP1), ("P2.parquet", dfP2)],
   [("profiles", ["P1.parquet", "P2.parquet"])]⟩

/-- The result of loading both example plates restricted to their metadata
columns plus the shared feature `Feature_1`. -/
def dfSharedOut : DF :=
  ⟨["Metadata_Plate", "Metadata_Well", "Feature_1"],
   [[1, 1, 10], [1, 2, 11], [1, 3, 12], [2, 1, 30], [2, 2, 31]]⟩

/-- Example table that lacks the feature column `Feature_2`. -/
def dfNoF2 : DF :=
  ⟨["Metadata_Plate", "Feature_1"], [[1, 10]]⟩

/-- Filesystem holding the `Feature_2`-less table under one file name. -/
def fsA : FS :=
  ⟨[("plateA.parquet", dfNoF2)], []⟩

/-- Filesystem holding the same `Feature_2`-less table under a different
file name. -/
def fsB : FS :=
  ⟨[("plateB.parquet", dfNoF2)], []⟩

/-- Example table whose feature column is named differently from the other
tables, producing a schema mismatch at concatenation. -/
def dfOther : DF :=
  ⟨["Metadata_Plate", "Feature_9"], [[3, 50]]⟩

/-- Filesystem holding two tables with mismatched column sets. -/
def fsMix : FS :=
  ⟨[("a.parquet", dfNoF2), ("b.parquet", dfOther)],
   [("mixdir", ["a.parquet", "b.parquet"])]⟩

/-! ## Basic facts about the modelled polars operations -/

theorem select_ok_facts {df out : DF} {ns : List String}
    (h : df.select ns = Except.ok out) :
    out.cols = ns ∧ (∀ n ∈ ns, n ∈ df.cols) ∧ firstDup ns = none := by
  unfold DF.select at h
  cases hf : ns.find? (fun n => !(df.cols.contains n)) with
  | some n => rw [hf] at h; exact absurd h (by simp)
  | none =>
    rw [hf] at h
    cases hd : firstDup ns with
    | some n => rw [hd] at h; exact absurd h (by simp)
    | none =>
      rw [hd] at h
      have hout := Except.ok.inj h
      refine ⟨by rw [← hout], ?_, rfl⟩
      intro n hn
      simpa using List.find?_eq_none.mp hf n hn

theorem firstDup_cons (x : String) (xs : List String) :
    firstDup (x :: xs) = if xs.contains x then some x else firstDup xs := rfl

theorem firstDup_some_of_both {l1 l2 : List String} {x : String}
    (h1 : x ∈ l1) (h2 : x ∈ l2) : ∃ d, firstDup (l1 ++ l2) = some d := by
  induction l1 with
  | nil => cases h1
  | cons a l1 ih =>
    simp only [List.cons_append]
    by_cases hc : ((l1 ++ l2).contains a = true)
    · refine ⟨a, ?_⟩
      rw [firstDup_cons, if_pos hc]
    · have hstep : firstDup (a :: (l1 ++ l2)) = firstDup (l1 ++ l2) := by
        rw [firstDup_cons, if_neg hc]
      rcases List.mem_cons.mp h1 with rfl | h1m
      · have hmem : x ∈ l1 ++ l2 := List.mem_append.mpr (Or.inr h2)
        exact absurd (by simpa using hmem) hc
      · rcases ih h1m with ⟨d, hd⟩
        exact ⟨d, by rw [hstep, hd]⟩

theorem firstDup_none_not_both {l1 l2 : List String} {x : String}
    (h : firstDup (l1 ++ l2) = none) (h1 : x ∈ l1) (h2 : x ∈ l2) : False := by
  rcases firstDup_some_of_both h1 h2 with ⟨d, hd⟩
  rw [h] at hd
  cases hd

theorem pl_concat_ok {dfs : List DF} {out : DF}
    (h : pl_concat dfs = Except.ok out) :
    ∃ d rest, dfs = d :: rest ∧ out.cols = d.cols ∧
      (∀ x ∈ dfs, x.cols = d.cols) ∧
      out.rows = (dfs.map DF.rows).flatten := by
  cases dfs with
  | nil => simp [pl_concat] at h
  | cons d rest =>
    simp only [pl_concat] at h
    split at h
    case isTrue hall =>
      have hout := Except.ok.inj h
      refine ⟨d, rest, rfl, by rw [← hout], ?_, by rw [← hout]⟩
      intro x hx
      rcases List.mem_cons.mp hx with rfl | hx'
      · rfl
      · simpa using List.all_eq_true.mp hall x hx'
    case isFalse hall => exact absurd h (by simp)

theorem pl_concat_mismatch {dfs : List DF} {d1 d2 : DF}
    (h1 : d1 ∈ dfs) (h2 : d2 ∈ dfs) (hne : d1.cols ≠ d2.cols) :
    pl_concat dfs = Except.error Err.shapeError := by
  cases dfs with
  | nil => cases h1
  | cons d rest =>
    simp only [pl_concat]
    rw [if_neg]
    intro hall
    have hfix : ∀ x ∈ d :: rest, x.cols = d.cols := by
      intro x hx
      rcases List.mem_cons.mp hx with rfl | hx'
      · rfl
      · simpa using List.all_eq_true.mp hall x hx'
    exact hne ((hfix d1 h1).trans (hfix d2 h2).symm)

/-! ## Facts about the embedded loading routine -/

theorem load_profile_some_ok {fs : FS} {s : List String} {f : String}
    {df : DF} {log : List String}
    (h : load_profile fs (some s) f = (Except.ok df, log)) :
    ∃ orig, fs.read f = some orig ∧
      orig.select ((split_meta_and_features orig).1 ++ s) = Except.ok df := by
  cases hr : fs.read f with
  | none => simp [load_profile, hr] at h
  | some orig =>
    simp only [load_profile, hr, Prod.mk.injEq] at h
    exact ⟨orig, rfl, h.1⟩

theorem load_profiles_cons_ok {fs : FS} {sf : Option (List String)} {f : String}
    {rest : List String} {dfs : List DF} {log : List String}
    (h : load_profiles fs sf (f :: rest) = (Except.ok dfs, log)) :
    ∃ df l dfs2 l2, load_profile fs sf f = (Except.ok df, l) ∧
      load_profiles fs sf rest = (Except.ok dfs2, l2) ∧ dfs = df :: dfs2 := by
  unfold load_profiles at h
  cases hlp : load_profile fs sf f with
  | mk r l =>
    rw [hlp] at h
    cases r with
    | error e => exact absurd h (by simp)
    | ok df =>
      cases hrest : load_profiles fs sf rest with
      | mk r2 l2 =>
        rw [hrest] at h
        cases r2 with
        | error e => exact absurd h (by simp)
        | ok dfs2 =>
          refine ⟨df, l, dfs2, l2, rfl, rfl, ?_⟩
          have h2 : ((Except.ok (df :: dfs2) : Except Err (List DF)), l ++ l2) =
              (Except.ok dfs, log) := h
          exact (Except.ok.inj (congrArg Prod.fst h2)).symm

theorem load_profiles_ok_each {fs : FS} {sf : Option (List String)} :
    ∀ {files : List String} {dfs : List DF} {log : List String},
    load_profiles fs sf files = (Except.ok dfs, log) →
    ∀ f ∈ files, ∃ df l, load_profile fs sf f = (Except.ok df, l) := by
  intro files
  induction files with
  | nil => intro dfs log _ f hf; cases hf
  | cons g rest ih =>
    intro dfs log h f hf
    rcases load_profiles_cons_ok h with ⟨df, l, dfs2, l2, hg, hrest, _⟩
    rcases List.mem_cons.mp hf with rfl | hf'
    · exact ⟨df, l, hg⟩
    · exact ih hrest f hf'

theorem load_profiles_none_all_read {fs : FS} {tbl : String → DF} :
    ∀ {files : List String}, (∀ f ∈ files, fs.read f = some (tbl f)) →
    load_profiles fs none files = (Except.ok (files.map tbl), files) := by
  intro files
  induction files with
  | nil => intro _; rfl
  | cons f rest ih =>
    intro hread
    have hf : load_profile fs none f = (Except.ok (tbl f), [f]) := by
      unfold load_profile
      rw [hread f (by simp)]
    have hrest := ih (fun g hg => hread g (by simp [hg]))
    simp only [load_profiles, hf, hrest, List.map_cons]
    rfl

theorem firstMissing_cons (fs : FS) (p : String) (rest : List String) :
    firstMissing fs (p :: rest) =
      if fs.pathExists p then firstMissing fs rest else some p := rfl

theorem firstMissing_of_missing {fs : FS} :
    ∀ {plates : List String} {p : String}, p ∈ plates →
    fs.pathExists p = false →
    ∃ q, firstMissing fs plates = some q ∧ q ∈ plates ∧
      fs.pathExists q = false := by
  intro plates
  induction plates with
  | nil => intro p hp; cases hp
  | cons a rest ih =>
    intro p hp hmiss
    by_cases ha : (fs.pathExists a = true)
    · have hstep : firstMissing fs (a :: rest) = firstMissing fs rest := by
        rw [firstMissing_cons, if_pos ha]
      rcases List.mem_cons.mp hp with rfl | hp'
      · rw [ha] at hmiss; cases hmiss
      · rcases ih hp' hmiss with ⟨q, hq, hqm, hqe⟩
        exact ⟨q, by rw [hstep, hq], List.mem_cons.mpr (Or.inr hqm), hqe⟩
    · have ha' : fs.pathExists a = false := by simpa using ha
      refine ⟨a, ?_, List.mem_cons.mpr (Or.inl rfl), ha'⟩
      rw [firstMissing_cons, if_neg ha]

theorem concat_loaded_ok {fs : FS} {sf : Option (List String)}
    {files : List String} {out : DF}
    (h : (concat_loaded fs sf files).1 = Except.ok out) :
    ∃ dfs log, load_profiles fs sf files = (Except.ok dfs, log) ∧
      pl_concat dfs = Except.ok out := by
  unfold concat_loaded at h
  cases hlp : load_profiles fs sf files with
  | mk r log =>
    rw [hlp] at h
    cases r with
    | error e => exact absurd h (by simp)
    | ok dfs => exact ⟨dfs, log, rfl, h⟩

/-! ## The routine only observes the filesystem through reads and globs -/

theorem load_profile_ext {fs1 fs2 : FS} (hread : ∀ p, fs1.read p = fs2.read p)
    (sf : Option (List String)) (f : String) :
    load_profile fs1 sf f = load_profile fs2 sf f := by
  unfold load_profile
  rw [hread f]

theorem load_profiles_ext {fs1 fs2 : FS} (hread : ∀ p, fs1.read p = fs2.read p)
    (sf : Option (List String)) :
    ∀ files : List String, load_profiles fs1 sf files = load_profiles fs2 sf files := by
  intro files
  induction files with
  | nil => rfl
  | cons f rest ih =>
    simp only [load_profiles, load_profile_ext hread sf f, ih]

theorem firstMissing_ext {fs1 fs2 : FS} (hread : ∀ p, fs1.read p = fs2.read p) :
    ∀ plates : List String, firstMissing fs1 plates = firstMissing fs2 plates := by
  intro plates
  induction plates with
  | nil => rfl
  | cons a rest ih =>
    have hex : fs1.pathExists a = fs2.pathExists a := by
      unfold FS.pathExists
      rw [hread a]
    rw [firstMissing_cons, firstMissing_cons, hex, ih]

theorem concat_loaded_ext {fs1 fs2 : FS} (hread : ∀ p, fs1.read p = fs2.read p)
    (sf : Option (List String)) (files : List String) :
    concat_loaded fs1 sf files = concat_loaded fs2 sf files := by
  unfold concat_loaded
  rw [load_profiles_ext hread sf files]

/-! ## The shape of a successful shared-feature run -/

theorem concat_loaded_shared_ok {fs : FS} {s : List String}
    {files : List String} {out : DF}
    (h : (concat_loaded fs (some s) files).1 = Except.ok out) :
    (∃ meta, out.cols = meta ++ s ∧ ∀ c ∈ meta, isMetadataColumn c = true) ∧
      (split_meta_and_features out).2 = s := by
  rcases concat_loaded_ok h with ⟨dfs, log, hload, hconcat⟩
  rcases pl_concat_ok hconcat with ⟨d, drest, hdfs, hcols, _, _⟩
  subst hdfs
  cases files with
  | nil =>
    exact absurd hload (by intro hh; cases (Prod.mk.injEq _ _ _ _ ▸ hh).1)
  | cons f frest =>
    rcases load_profiles_cons_ok hload with ⟨df0, l, dfs2, l2, hf, _, hhead⟩
    have hdf0 : df0 = d := (List.cons.injEq _ _ _ _ ▸ hhead.symm).1
    subst hdf0
    rcases load_profile_some_ok hf with ⟨orig, hreadf, hsel⟩
    rcases select_ok_facts hsel with ⟨hselcols, hmem, hnodup⟩
    have hmeta : ∀ c ∈ (split_meta_and_features orig).1, isMetadataColumn c = true := by
      intro c hc
      exact List.of_mem_filter hc
    have hfeat : ∀ c ∈ s, isMetadataColumn c = false := by
      intro c hc
      by_contra hcontra
      have hmetac : isMetadataColumn c = true := by
        cases hb : isMetadataColumn c
        · exact absurd hb hcontra
        · rfl
      have hcin : c ∈ orig.cols := hmem c (List.mem_append.mpr (Or.inr hc))
      have hcm : c ∈ (split_meta_and_features orig).1 :=
        List.mem_filter.mpr ⟨hcin, hmetac⟩
      exact firstDup_none_not_both hnodup hcm hc
    have houtcols : out.cols = (split_meta_and_features orig).1 ++ s := by
      rw [hcols, hselcols]
    constructor
    · exact ⟨(split_meta_and_features orig).1, houtcols, hmeta⟩
    · show out.cols.filter (fun c => !isMetadataColumn c) = s
      rw [houtcols, List.filter_append]
      have h1 : ((split_meta_and_features orig).1.filter
          (fun c => !isMetadataColumn c)) = [] := by
        refine List.filter_eq_nil_iff.mpr ?_
        intro a ha
        simp [hmeta a ha]
      have h2 : s.filter (fun c => !isMetadataColumn c) = s := by
        refine List.filter_eq_self.mpr ?_
        intro a ha
        simp [hfeat a ha]
      rw [h1, h2, List.nil_append]

theorem find?_append_skip {p : String → Bool} :
    ∀ {l1 : List String}, (∀ a ∈ l1, p a = false) →
    ∀ {l2 : List String} {x : String}, x ∈ l2 → p x = true →
    ∃ y, (l1 ++ l2).find? p = some y ∧ y ∈ l2 ∧ p y = true := by
  intro l1
  induction l1 with
  | nil =>
    intro _ l2 x hx hpx
    have hsome : (l2.find? p).isSome := List.find?_isSome.mpr ⟨x, hx, hpx⟩
    rcases Option.isSome_iff_exists.mp hsome with ⟨y, hy⟩
    exact ⟨y, by simpa using hy, List.mem_of_find?_eq_some hy, List.find?_some hy⟩
  | cons a l1 ih =>
    intro h1 l2 x hx hpx
    have ha : p a = false := h1 a (by simp)
    have hstep : ((a :: l1) ++ l2).find? p = (l1 ++ l2).find? p := by
      simp only [List.cons_append]
      exact List.find?_cons_of_neg _ (by simp [ha])
    rcases ih (fun b hb => h1 b (by simp [hb])) hx hpx with ⟨y, hy, hym, hpy⟩
    exact ⟨y, by rw [hstep, hy], hym, hpy⟩

theorem no_ok_of_load_profile_error {fs : FS} {sf : Option (List String)}
    {plates : List String} {file : String} {e : Err}
    (hmem : file ∈ plates)
    (hload : (load_profile fs sf file).1 = Except.error e)
    (dir : String) :
    ∀ out, (load_and_concat_profiles fs dir sf (some plates)).1 ≠ Except.ok out := by
  intro out hok
  simp only [load_and_concat_profiles] at hok
  cases hm : firstMissing fs plates with
  | some q => rw [hm] at hok; exact absurd hok (by simp)
  | none =>
    rw [hm] at hok
    rcases concat_loaded_ok hok with ⟨dfs, log, hloadall, _⟩
    rcases load_profiles_ok_each hloadall file hmem with ⟨dfld, l, hfl⟩
    have hcontra := hload.symm.trans (congrArg Prod.fst hfl)
    exact absurd hcontra (by simp)

theorem load_profile_ok_isSome {fs : FS} {sf : Option (List String)}
    {f : String} {df : DF} {l : List String}
    (h : load_profile fs sf f = (Except.ok df, l)) :
    fs.pathExists f = true := by
  unfold FS.pathExists
  cases hr : fs.read f with
  | none => simp [load_profile, hr] at h
  | some d => rfl

theorem firstMissing_none_of_all {fs : FS} :
    ∀ {files : List String}, (∀ f ∈ files, fs.pathExists f = true) →
    firstMissing fs files = none := by
  intro files
  induction files with
  | nil => intro _; rfl
  | cons a rest ih =>
    intro h
    rw [firstMissing_cons, if_pos (h a (by simp))]
    exact ih (fun g hg => h g (by simp [hg]))

/-! ## Claim theorems -/

/-- C1: for every call to `load_and_concat_profiles` where `shared_features`
is supplied and a table is returned, each loaded table was projected to its
metadata columns followed by the shared feature names in that order, so the
output columns are metadata columns followed by exactly the supplied list
and the output feature-column set equals exactly the supplied list. -/
theorem C1_shared_feature_projection (fs : FS) (dir : String) (s : List String)
    (sp : Option (List String)) (out : DF)
    (h : (load_and_concat_profiles fs dir (some s) sp).1 = Except.ok out) :
    (∃ meta, out.cols = meta ++ s ∧ ∀ c ∈ meta, isMetadataColumn c = true) ∧
      (split_meta_and_features out).2 = s := by
  cases sp with
  | some plates =>
    simp only [load_and_concat_profiles] at h
    cases hm : firstMissing fs plates with
    | some p => rw [hm] at h; exact absurd h (by simp)
    | none =>
      rw [hm] at h
      exact concat_loaded_shared_ok h
  | none =>
    simp only [load_and_concat_profiles] at h
    cases hg : fs.glob dir with
    | nil => rw [hg] at h; exact absurd h (by simp)
    | cons f rest =>
      rw [hg] at h
      exact concat_loaded_shared_ok h

/-- Witness for C1: loading the two example plates with shared feature
`Feature_1` returns a table whose columns are the metadata columns followed
by exactly `Feature_1`. -/
theorem C1_witness :
    ((load_and_concat_profiles fsMain "profiles" (some ["Feature_1"])
        (some ["P1.parquet", "P2.parquet"])).1 = Except.ok dfSharedOut) ∧
    ((∃ meta, dfSharedOut.cols = meta ++ ["Feature_1"] ∧
        ∀ c ∈ meta, isMetadataColumn c = true) ∧
      (split_meta_and_features dfSharedOut).2 = ["Feature_1"]) :=
  have hrun : (load_and_concat_profiles fsMain "profiles" (some ["Feature_1"])
      (some ["P1.parquet", "P2.parquet"])).1 = Except.ok dfSharedOut := by rfl
  ⟨hrun, C1_shared_feature_projection fsMain "profiles" ["Feature_1"]
    (some ["P1.parquet", "P2.parquet"]) dfSharedOut hrun⟩

/-- C2: when `specific_plates` contains a path that does not exist, the call
returns the `FileNotFoundError` raised by the existence loop for precisely
the first missing path in list order, whose message names that path, and
the read log is empty: no file load is attempted before the failure. -/
theorem C2_missing_plate_fails_fast (fs : FS) (dir : String)
    (sf : Option (List String)) (plates : List String) (p : String)
    (hp : p ∈ plates) (hmiss : fs.pathExists p = false) :
    ∃ q, q ∈ plates ∧ fs.pathExists q = false ∧
      firstMissing fs plates = some q ∧
      load_and_concat_profiles fs dir sf (some plates) =
        (Except.error (Err.fileNotFound q), []) ∧
      (Err.fileNotFound q).message = "Profile file not found: " ++ q := by
  rcases firstMissing_of_missing hp hmiss with ⟨q, hq, hqm, hqe⟩
  refine ⟨q, hqm, hqe, hq, ?_, rfl⟩
  simp only [load_and_concat_profiles]
  rw [hq]

/-- Witness for C2: asking for an existing plate and a missing plate fails
with the missing path named and an empty read log. -/
theorem C2_witness :
    ∃ q, q ∈ ["P1.parquet", "missing.parquet"] ∧
      fsMain.pathExists q = false ∧
      firstMissing fsMain ["P1.parquet", "missing.parquet"] = some q ∧
      load_and_concat_profiles fsMain "profiles" none
          (some ["P1.parquet", "missing.parquet"]) =
        (Except.error (Err.fileNotFound q), []) ∧
      (Err.fileNotFound q).message = "Profile file not found: " ++ q :=
  C2_missing_plate_fails_fast fsMain "profiles" none
    ["P1.parquet", "missing.parquet"] "missing.parquet" (by simp) (by rfl)

/-- C3 counterexample: the claim says the missing-column failure names both
the file and the column.  The error raised at the projection step carries
only the column name: two runs over filesystems that differ only in the
name of the offending file produce literally the same error value, so the
error cannot identify the file. -/
theorem C3_counterexample :
    (load_and_concat_profiles fsA "d" (some ["Feature_1", "Feature_2"])
        (some ["plateA.parquet"])).1 =
      Except.error (Err.columnNotFound "Feature_2") ∧
    (load_and_concat_profiles fsB "d" (some ["Feature_1", "Feature_2"])
        (some ["plateB.parquet"])).1 =
      Except.error (Err.columnNotFound "Feature_2") ∧
    (Err.columnNotFound "Feature_2").message = "column Feature_2 not found" :=
  ⟨by rfl, by rfl, by rfl⟩

/-- C3 (amended): when `shared_features` is supplied and a loaded file lacks
one of the required shared feature columns, that file's projection fails
with a missing-column error naming a missing column (the file itself is not
identified by the error), and the whole call fails rather than returning a
table. -/
theorem C3_missing_column (fs : FS) (dir : String) (s : List String)
    (plates : List String) (file : String) (df : DF) (c : String)
    (hmem : file ∈ plates) (hread : fs.read file = some df)
    (hc : c ∈ s) (hmiss : df.cols.contains c = false) :
    (∃ c2, c2 ∈ s ∧ df.cols.contains c2 = false ∧
        (load_profile fs (some s) file).1 =
          Except.error (Err.columnNotFound c2)) ∧
      ∀ out, (load_and_concat_profiles fs dir (some s) (some plates)).1 ≠
        Except.ok out := by
  have hmetap : ∀ a ∈ (split_meta_and_features df).1,
      (!(df.cols.contains a)) = false := by
    intro a ha
    have hin : a ∈ df.cols := List.mem_of_mem_filter ha
    simp [hin]
  have hcp : (!(df.cols.contains c)) = true := by
    rw [hmiss]; rfl
  rcases find?_append_skip hmetap hc hcp with ⟨y, hy, hym, hpy⟩
  have hload : (load_profile fs (some s) file).1 =
      Except.error (Err.columnNotFound y) := by
    simp only [load_profile, hread]
    unfold DF.select
    rw [hy]
  have hyc : df.cols.contains y = false := by
    cases hb : df.cols.contains y
    · rfl
    · rw [hb] at hpy; exact absurd hpy (by simp)
  exact ⟨⟨y, hym, hyc, hload⟩, no_ok_of_load_profile_error hmem hload dir⟩

/-- Witness for C3 (amended): `plateA.parquet` lacks `Feature_2`, its
projection fails with the missing-column error, and the call returns no
table. -/
theorem C3_witness :
    (∃ c2, c2 ∈ ["Feature_1", "Feature_2"] ∧
        dfNoF2.cols.contains c2 = false ∧
        (load_profile fsA (some ["Feature_1", "Feature_2"])
            "plateA.parquet").1 =
          Except.error (Err.columnNotFound c2)) ∧
      ∀ out, (load_and_concat_profiles fsA "d"
          (some ["Feature_1", "Feature_2"]) (some ["plateA.parquet"])).1 ≠
        Except.ok out :=
  C3_missing_column fsA "d" ["Feature_1", "Feature_2"] ["plateA.parquet"]
    "plateA.parquet" dfNoF2 "Feature_2" (by simp) (by rfl) (by simp) (by rfl)

/-- C4: with no explicit file list and no shared-feature filter, a directory
whose discovered files all load to tables with one common column list yields
a table with that column list whose row count is the sum of the per-file row
counts. -/
theorem C4_directory_sum (fs : FS) (dir : String) (tbl : String → DF)
    (cs : List String) (f0 : String) (frest : List String)
    (hglob : fs.glob dir = f0 :: frest)
    (hread : ∀ f ∈ f0 :: frest, fs.read f = some (tbl f))
    (hcols : ∀ f ∈ f0 :: frest, (tbl f).cols = cs) :
    ∃ out, (load_and_concat_profiles fs dir none none).1 = Except.ok out ∧
      out.cols = cs ∧
      out.rows.length =
        ((f0 :: frest).map (fun f => (tbl f).rows.length)).sum := by
  have hrun : load_and_concat_profiles fs dir none none =
      concat_loaded fs none (f0 :: frest) := by
    simp only [load_and_concat_profiles]
    rw [hglob]
  have hload := load_profiles_none_all_read hread
  have hcl : concat_loaded fs none (f0 :: frest) =
      (pl_concat ((f0 :: frest).map tbl), f0 :: frest) := by
    unfold concat_loaded
    rw [hload]
  have hcond : ((frest.map tbl).all
      (fun x => x.cols == (tbl f0).cols)) = true := by
    refine List.all_eq_true.mpr ?_
    intro x hx
    rcases List.mem_map.mp hx with ⟨g, hg, rfl⟩
    have h1 : (tbl g).cols = cs := hcols g (by simp [hg])
    have h2 : (tbl f0).cols = cs := hcols f0 (by simp)
    simp [h1, h2]
  have hpc : pl_concat ((f0 :: frest).map tbl) =
      Except.ok ⟨(tbl f0).cols, (((f0 :: frest).map tbl).map DF.rows).flatten⟩ := by
    rw [List.map_cons]
    simp only [pl_concat]
    rw [if_pos hcond, List.map_cons]
  refine ⟨⟨(tbl f0).cols, (((f0 :: frest).map tbl).map DF.rows).flatten⟩,
    ?_, hcols f0 (by simp), ?_⟩
  · rw [hrun, hcl]
    exact hpc
  · show ((((f0 :: frest).map tbl).map DF.rows).flatten).length = _
    rw [List.length_flatten, List.map_map, List.map_map]
    rfl

/-- Witness for C4: the example directory holds two plates with identical
columns and 3 plus 2 rows; the unfiltered load returns their 4 columns and
5 rows. -/
theorem C4_witness :
    ∃ out, (load_and_concat_profiles fsMain "profiles" none none).1 =
        Except.ok out ∧
      out.cols = ["Metadata_Plate", "Metadata_Well", "Feature_1", "Feature_2"] ∧
      out.rows.length =
        ((["P1.parquet", "P2.parquet"]).map
          (fun f => ((fun g => if g = "P1.parquet" then dfP1 else dfP2) f).rows.length)).sum :=
  C4_directory_sum fsMain "profiles"
    (fun g => if g = "P1.parquet" then dfP1 else dfP2)
    ["Metadata_Plate", "Metadata_Well", "Feature_1", "Feature_2"]
    "P1.parquet" ["P2.parquet"] (by rfl)
    (by intro f hf; fin_cases hf <;> rfl)
    (by intro f hf; fin_cases hf <;> rfl)

/-- C5: for every call, over either entry branch (explicit `specific_plates`
list or directory discovery), when the loaded (post-projection) tables reach
concatenation with two of them disagreeing on the column list, the call
returns the concatenation `ShapeError`; it never returns a table with padded
or dropped columns. -/
theorem C5_concat_mismatch_error (fs : FS) (dir : String)
    (sf : Option (List String)) (sp : Option (List String))
    (files : List String) (dfs : List DF) (log : List String) (d1 d2 : DF)
    (hfiles : files = match sp with
      | some plates => plates
      | none => fs.glob dir)
    (hload : load_profiles fs sf files = (Except.ok dfs, log))
    (h1 : d1 ∈ dfs) (h2 : d2 ∈ dfs) (hne : d1.cols ≠ d2.cols) :
    (load_and_concat_profiles fs dir sf sp).1 =
      Except.error Err.shapeError := by
  have hex : ∀ f ∈ files, fs.pathExists f = true := by
    intro f hf
    rcases load_profiles_ok_each hload f hf with ⟨df, l, hok⟩
    exact load_profile_ok_isSome hok
  cases sp with
  | some plates =>
    have hfe : files = plates := hfiles
    subst hfe
    simp only [load_and_concat_profiles]
    rw [firstMissing_none_of_all hex]
    unfold concat_loaded
    rw [hload]
    show pl_concat dfs = Except.error Err.shapeError
    exact pl_concat_mismatch h1 h2 hne
  | none =>
    have hfe : files = fs.glob dir := hfiles
    simp only [load_and_concat_profiles]
    cases hg : fs.glob dir with
    | nil =>
      rw [hg] at hfe
      subst hfe
      have hnil : ((Except.ok ([] : List DF) : Except Err (List DF)),
          ([] : List String)) = (Except.ok dfs, log) := hload
      have hdfs : ([] : List DF) = dfs := Except.ok.inj (congrArg Prod.fst hnil)
      rw [← hdfs] at h1
      cases h1
    | cons f rest =>
      rw [hg] at hfe
      subst hfe
      show (concat_loaded fs sf (f :: rest)).1 = Except.error Err.shapeError
      unfold concat_loaded
      rw [hload]
      show pl_concat dfs = Except.error Err.shapeError
      exact pl_concat_mismatch h1 h2 hne

/-- Witness for C5: two plates with different feature columns, resolved by
directory discovery, load fine but the concatenation step fails with the
shape error. -/
theorem C5_witness :
    (load_and_concat_profiles fsMix "mixdir" none none).1 =
      Except.error Err.shapeError :=
  C5_concat_mismatch_error fsMix "mixdir" none none
    ["a.parquet", "b.parquet"] [dfNoF2, dfOther]
    ["a.parquet", "b.parquet"] dfNoF2 dfOther
    (by rfl) (by rfl) (by simp) (by simp) (by decide)

/-- C6: with no explicit file list, a directory whose non-recursive glob
discovers zero parquet files (an empty or non-existent directory) makes the
call fail with the not-found error whose message names that directory, with
no file read attempted. -/
theorem C6_no_profiles_found (fs : FS) (dir : String)
    (sf : Option (List String)) (h : fs.glob dir = []) :
    load_and_concat_profiles fs dir sf none =
      (Except.error (Err.noProfilesFound dir), []) ∧
    (Err.noProfilesFound dir).message = "No profile files found in " ++ dir := by
  constructor
  · simp only [load_and_concat_profiles]
    rw [h]
  · rfl

/-- Witness for C6: a directory with no listing fails with the not-found
error naming it. -/
theorem C6_witness :
    load_and_concat_profiles fsMain "empty-dir" none none =
      (Except.error (Err.noProfilesFound "empty-dir"), []) ∧
    (Err.noProfilesFound "empty-dir").message =
      "No profile files found in " ++ "empty-dir" :=
  C6_no_profiles_found fsMain "empty-dir" none (by rfl)

/-- C7: the call is deterministic in its inputs: two calls with identical
arguments over filesystems that agree on every read and every directory
listing return identical results (table or error), row for row and column
for column. -/
theorem C7_deterministic (fs1 fs2 : FS) (dir : String)
    (sf : Option (List String)) (sp : Option (List String))
    (hread : ∀ p, fs1.read p = fs2.read p)
    (hglob : ∀ d, fs1.glob d = fs2.glob d) :
    load_and_concat_profiles fs1 dir sf sp =
      load_and_concat_profiles fs2 dir sf sp := by
  cases sp with
  | some plates =>
    simp only [load_and_concat_profiles]
    rw [firstMissing_ext hread plates, concat_loaded_ext hread sf plates]
  | none =>
    simp only [load_and_concat_profiles]
    rw [hglob dir]
    cases fs2.glob dir with
    | nil => rfl
    | cons f rest => exact concat_loaded_ext hread sf (f :: rest)

/-- Witness for C7: the example call is equal to itself under the
reflexive agreement hypotheses. -/
theorem C7_witness :
    load_and_concat_profiles fsMain "profiles" (some ["Feature_1"]) none =
      load_and_concat_profiles fsMain "profiles" (some ["Feature_1"]) none :=
  C7_deterministic fsMain fsMain "profiles" (some ["Feature_1"]) none
    (fun _ => rfl) (fun _ => rfl)

/-- C8: supplying `specific_plates` as the empty list bypasses directory
discovery and its not-found error; the call reaches concatenation with zero
tables and fails there with the empty-concat error, never returning a
table.  The read log is empty. -/
theorem C8_empty_explicit_list (fs : FS) (dir : String)
    (sf : Option (List String)) :
    load_and_concat_profiles fs dir sf (some []) =
      (Except.error Err.concatEmptyList, []) := rfl

/-- C9: when `specific_plates` is supplied, `profile_dir` is not consulted:
the call's entire outcome is identical for any two directory arguments, and
in particular the directory's existence is never checked. -/
theorem C9_profile_dir_unused (fs : FS) (d1 d2 : String)
    (sf : Option (List String)) (plates : List String) :
    load_and_concat_profiles fs d1 sf (some plates) =
      load_and_concat_profiles fs d2 sf (some plates) := rfl

/-- C10: when `shared_features` contains a name that is also one of the
metadata columns of a loaded table, the projection list for that file holds
the name twice, the file's projection fails with the duplicate-column
error, and the call returns no table. -/
theorem C10_duplicate_metadata_feature (fs : FS) (dir : String)
    (s : List String) (plates : List String) (file : String) (df : DF)
    (x : String)
    (hmem : file ∈ plates) (hread : fs.read file = some df)
    (hx : x ∈ s) (hxm : x ∈ (split_meta_and_features df).1)
    (hall : ∀ c ∈ s, df.cols.contains c = true) :
    (∃ d, (load_profile fs (some s) file).1 =
        Except.error (Err.duplicateColumn d)) ∧
      ∀ out, (load_and_concat_profiles fs dir (some s) (some plates)).1 ≠
        Except.ok out := by
  have hfind : (((split_meta_and_features df).1 ++ s).find?
      (fun n => !(df.cols.contains n))) = none := by
    refine List.find?_eq_none.mpr ?_
    intro a ha
    rcases List.mem_append.mp ha with hma | hsa
    · have hin : a ∈ df.cols := List.mem_of_mem_filter hma
      simp [hin]
    · simpa using hall a hsa
  rcases firstDup_some_of_both hxm hx with ⟨d, hd⟩
  have hload : (load_profile fs (some s) file).1 =
      Except.error (Err.duplicateColumn d) := by
    simp only [load_profile, hread]
    unfold DF.select
    rw [hfind, hd]
  exact ⟨⟨d, hload⟩, no_ok_of_load_profile_error hmem hload dir⟩

/-- Witness for C10: asking for shared feature `Metadata_Plate`, which is a
metadata column of plate `P1`, fails with the duplicate-column error and the
call returns no table. -/
theorem C10_witness :
    (∃ d, (load_profile fsMain (some ["Metadata_Plate"]) "P1.parquet").1 =
        Except.error (Err.duplicateColumn d)) ∧
      ∀ out, (load_and_concat_profiles fsMain "profiles"
          (some ["Metadata_Plate"]) (some ["P1.parquet"])).1 ≠
        Except.ok out :=
  C10_duplicate_metadata_feature fsMain "profiles" ["Metadata_Plate"]
    ["P1.parquet"] "P1.parquet" dfP1 "Metadata_Plate"
    (by simp) (by rfl) (by simp) (by decide) (by decide)
